import Mathlib

/-!
Shallow embedding of the order-placement / cart / shipping core of the
e-commerce server (`src/server/src/handlers/`).

Database rows are modelled as Lean structures, the database as lists of rows,
and each tRPC handler as a pure function from an input and a `DB` to an
`Except String` result paired with the new `DB` (the handlers throw
`Error(message)` on validation failure; we carry the exact message strings).
Monetary values (`numeric(10,2)` columns, JS numbers in the shipping
estimator) are modelled as `ℚ`; `integer` columns as `ℤ` or `Nat` (ids).
Timestamp columns (`created_at`/`updated_at`) carry no logic in any claim and
are omitted.
-/

namespace ECommerce

/-- A row of the `products` table (id, unit price, stock); other columns
(name, code, category, ...) are irrelevant to the verified handlers'
control flow. -/
structure Product where
  id : Nat
  price : ℚ
  stock : Int
  deriving Repr, DecidableEq

/-- A row of the `users` table, reduced to the fields read by `addToCart`. -/
structure User where
  id : Nat
  is_active : Bool
  deriving Repr, DecidableEq

/-- A row of the `cart_items` table. -/
structure CartItem where
  id : Nat
  user_id : Nat
  product_id : Nat
  quantity : Int
  deriving Repr, DecidableEq

/-- A row of the `orders` table. -/
structure Order where
  id : Nat
  user_id : Nat
  total_amount : ℚ
  status : String
  shipping_address : String
  shipping_method : String
  deriving Repr, DecidableEq

/-- A row of the `order_items` table. -/
structure OrderItem where
  order_id : Nat
  product_id : Nat
  quantity : Int
  price_at_purchase : ℚ
  deriving Repr, DecidableEq

/-- The relational store: one list per table, plus the serial-id counters
for the tables the verified handlers insert into. -/
structure DB where
  users : List User
  products : List Product
  cartItems : List CartItem
  orders : List Order
  orderItems : List OrderItem
  nextCartItemId : Nat
  nextOrderId : Nat
  deriving Repr, DecidableEq

/-- `AddToCartInput` (schema.ts): `product_id`, `quantity` (Zod: positive int). -/
structure AddToCartInput where
  product_id : Nat
  quantity : Int
  deriving Repr, DecidableEq

/-- `UpdateCartItemInput` (schema.ts): cart line `id`, new `quantity`. -/
structure UpdateCartItemInput where
  id : Nat
  quantity : Int
  deriving Repr, DecidableEq

/-- `CreateOrderInput` (schema.ts): shipping address and method. -/
structure CreateOrderInput where
  shipping_address : String
  shipping_method : String
  deriving Repr, DecidableEq

/-- `addToCart` (src/server/src/handlers/add_to_cart.ts): verifies the user
exists and is active, the product exists, and the requested quantity is in
stock; merges with an existing (user, product) cart line after re-checking
the merged total against stock, otherwise inserts a new line. -/
def addToCart (input : AddToCartInput) (userId : Nat) (db : DB) :
    Except String (CartItem × DB) :=
  match db.users.find? (fun u => u.id == userId) with
  | none => .error "User not found or inactive"
  | some user =>
    if !user.is_active then .error "User not found or inactive"
    else
      match db.products.find? (fun p => p.id == input.product_id) with
      | none => .error "Product not found"
      | some product =>
        if product.stock < input.quantity then
          .error "Insufficient stock available"
        else
          match db.cartItems.find?
              (fun ci => ci.user_id == userId && ci.product_id == input.product_id) with
          | some existingCartItem =>
            let newQuantity := existingCartItem.quantity + input.quantity
            if product.stock < newQuantity then
              .error "Total quantity exceeds available stock"
            else
              .ok ({ existingCartItem with quantity := newQuantity },
                { db with cartItems := db.cartItems.map (fun ci =>
                    if ci.id == existingCartItem.id then { ci with quantity := newQuantity }
                    else ci) })
          | none =>
            let newItem : CartItem :=
              { id := db.nextCartItemId, user_id := userId,
                product_id := input.product_id, quantity := input.quantity }
            .ok (newItem,
              { db with cartItems := db.cartItems ++ [newItem],
                        nextCartItemId := db.nextCartItemId + 1 })

/-- `updateCartItem` (src/server/src/handlers/update_cart_item.ts): the line
must exist and belong to the requesting user (one shared error message for
both failures), the referenced product must exist, and the new quantity must
not exceed its stock; then the line's quantity is replaced. -/
def updateCartItem (input : UpdateCartItemInput) (userId : Nat) (db : DB) :
    Except String (CartItem × DB) :=
  match db.cartItems.find? (fun ci => ci.id == input.id && ci.user_id == userId) with
  | none => .error "Cart item not found or does not belong to user"
  | some existingCartItem =>
    match db.products.find? (fun p => p.id == existingCartItem.product_id) with
    | none => .error "Product not found"
    | some product =>
      if product.stock < input.quantity then
        .error ("Insufficient stock. Available: " ++ toString product.stock
          ++ ", requested: " ++ toString input.quantity)
      else
        .ok ({ existingCartItem with quantity := input.quantity },
          { db with cartItems := db.cartItems.map (fun ci =>
              if ci.id == input.id then { ci with quantity := input.quantity } else ci) })

/-- `removeCartItem` (src/server/src/handlers/remove_cart_item.ts): deletes
the cart lines matching (id, user) and reports via the `success` flag whether
any row was affected; it never throws on a missing or foreign line. -/
def removeCartItem (id userId : Nat) (db : DB) : Bool × DB :=
  let pred := fun (ci : CartItem) => ci.id == id && ci.user_id == userId
  (!(db.cartItems.filter pred).isEmpty,
    { db with cartItems := db.cartItems.filter (fun ci => !(pred ci)) })

/-- The user's cart lines, as read by order placement. -/
def userLines (db : DB) (userId : Nat) : List CartItem :=
  db.cartItems.filter (fun ci => ci.user_id == userId)

/-- The product referenced by a cart line. -/
def lineProduct (db : DB) (ci : CartItem) : Option Product :=
  db.products.find? (fun p => p.id == ci.product_id)

/-- The referenced product, defaulted (used only under a hypothesis that the
lookup succeeds). -/
def productOf (db : DB) (ci : CartItem) : Product :=
  (lineProduct db ci).getD { id := 0, price := 0, stock := 0 }

/-- The `InsufficientStock` message of order placement, naming the offending
product and the requested vs. available figures (spec §4.3 / §7). -/
def stockMsg (p : Product) (ci : CartItem) : String :=
  "Insufficient stock for product " ++ toString p.id ++ ": requested "
    ++ toString ci.quantity ++ ", available " ++ toString p.stock

/-- Resolve each cart line against its product and validate its quantity
against current stock, failing on the first missing product or the first
line whose quantity exceeds stock (spec §4.3 steps 1 and 3). -/
def resolveLines (db : DB) : List CartItem → Except String (List (CartItem × Product))
  | [] => .ok []
  | ci :: rest =>
    match lineProduct db ci with
    | none => .error "Product not found"
    | some p =>
      if p.stock < ci.quantity then .error (stockMsg p ci)
      else
        match resolveLines db rest with
        | .error e => .error e
        | .ok r => .ok ((ci, p) :: r)

/-- Order total: the exact sum of `product.price × line.quantity` over the
resolved lines (spec §4.3 step 4). -/
def orderTotal (resolved : List (CartItem × Product)) : ℚ :=
  (resolved.map (fun cp => cp.2.price * (cp.1.quantity : ℚ))).sum

/-- Total quantity of the given lines referencing product `pid`. -/
def cartQtyFor (lines : List CartItem) (pid : Nat) : Int :=
  ((lines.filter (fun ci => ci.product_id == pid)).map (fun ci => ci.quantity)).sum

/-- Modelled from the spec: `createOrder`
(src/server/src/handlers/create_order.ts) is an explicit placeholder in the
repository ("Real code should be implemented here"), so the behaviour is
taken from spec §4.3 (placeOrder), corroborated by the handler's test suite:
load the user's cart lines; fail with `Cart is empty` when there are none;
fail with an insufficient-stock message naming the offending product when a
line's quantity exceeds the product's current stock; otherwise persist one
pending order capturing the shipping address/method and the exact total, one
order item per cart line with `price_at_purchase` snapshot, decrement each
referenced product's stock by the purchased quantity, and delete the user's
cart lines — all in one atomic unit (here: one pure state transition). -/
def createOrder (input : CreateOrderInput) (userId : Nat) (db : DB) :
    Except String (Order × DB) :=
  let lines := userLines db userId
  if lines.isEmpty then .error "Cart is empty"
  else
    match resolveLines db lines with
    | .error e => .error e
    | .ok resolved =>
      let order : Order :=
        { id := db.nextOrderId, user_id := userId,
          total_amount := orderTotal resolved, status := "pending",
          shipping_address := input.shipping_address,
          shipping_method := input.shipping_method }
      let newOrderItems := resolved.map (fun cp =>
        ({ order_id := order.id, product_id := cp.1.product_id,
           quantity := cp.1.quantity, price_at_purchase := cp.2.price } : OrderItem))
      .ok (order,
        { db with
            orders := db.orders ++ [order],
            orderItems := db.orderItems ++ newOrderItems,
            products := db.products.map (fun p =>
              { p with stock := p.stock - cartQtyFor lines p.id }),
            cartItems := db.cartItems.filter (fun ci => ci.user_id != userId),
            nextOrderId := db.nextOrderId + 1 })

/-! ### Shipping estimator (src/server/src/handlers/calculate_shipping.ts)

A pure pricing function over JS numbers, modelled over `ℚ`. -/

/-- The four shipping zones of `SHIPPING_ZONES`. -/
inductive Zone where
  | localZone
  | regionalZone
  | nationalZone
  | internationalZone
  deriving Repr, DecidableEq

/-- One entry of the `SHIPPING_ZONES` table: cost multiplier and base
transit days. -/
structure ZoneConfig where
  multiplier : ℚ
  baseDays : Int
  deriving Repr, DecidableEq

/-- The `SHIPPING_ZONES` table. -/
def SHIPPING_ZONES : Zone → ZoneConfig
  | .localZone => { multiplier := 1.0, baseDays := 1 }
  | .regionalZone => { multiplier := 1.5, baseDays := 3 }
  | .nationalZone => { multiplier := 2.0, baseDays := 5 }
  | .internationalZone => { multiplier := 3.5, baseDays := 10 }

/-- One entry of the `BASE_METHODS` table. -/
structure BaseMethod where
  method : String
  baseCost : ℚ
  speedMultiplier : ℚ
  maxWeight : ℚ
  deriving Repr, DecidableEq

/-- The three fixed base shipping methods. -/
def BASE_METHODS : List BaseMethod :=
  [{ method := "Standard", baseCost := 5.99, speedMultiplier := 1.0, maxWeight := 50 },
   { method := "Express", baseCost := 12.99, speedMultiplier := 0.4, maxWeight := 30 },
   { method := "Overnight", baseCost := 24.99, speedMultiplier := 0.2, maxWeight := 20 }]

/-- JS `String.prototype.includes`, over character lists. -/
def containsSub (haystack needle : List Char) : Bool :=
  (List.range (haystack.length + 1)).any (fun i => needle.isPrefixOf (haystack.drop i))

/-- `address.toLowerCase()` as a character list (ASCII lowering, which is
what the matched keywords exercise). -/
def lowerChars (s : String) : List Char :=
  s.data.map Char.toLower

/-- `determineShippingZone`: keyword heuristics on the lowercased address,
checked in the source's order (local, then regional, then international),
defaulting to national. -/
def determineShippingZone (address : String) : Zone :=
  let lowerAddress := lowerChars address
  if containsSub lowerAddress "local".data || containsSub lowerAddress "same city".data then
    .localZone
  else if containsSub lowerAddress "regional".data
      || containsSub lowerAddress "same state".data then
    .regionalZone
  else if containsSub lowerAddress "international".data
      || containsSub lowerAddress "canada".data
      || containsSub lowerAddress "mexico".data
      || containsSub lowerAddress "europe".data
      || containsSub lowerAddress "asia".data then
    .internationalZone
  else
    .nationalZone

/-- `calculateWeightMultiplier`: the five weight bands. -/
def calculateWeightMultiplier (weight : ℚ) : ℚ :=
  if weight ≤ 1 then 1.0
  else if weight ≤ 5 then 1.2
  else if weight ≤ 10 then 1.5
  else if weight ≤ 20 then 2.0
  else 2.5

/-- JS `Math.round`: round half toward positive infinity. -/
def jsRound (x : ℚ) : Int := ⌊x + 1 / 2⌋

/-- `Math.round(x * 100) / 100`: round to two decimal places. -/
def round2 (x : ℚ) : ℚ := (jsRound (x * 100) : ℚ) / 100

/-- One shipping option of the result. -/
structure ShippingOption where
  method : String
  cost : ℚ
  estimatedDays : Int
  deriving Repr, DecidableEq

/-- The option built for one surviving base method: cost is
`round2(baseCost × zoneMultiplier × weightMultiplier)` and the ETA is
`max(1, ceil(zoneBaseDays × speedMultiplier))`. -/
def mkOption (zoneConfig : ZoneConfig) (weightMultiplier : ℚ) (m : BaseMethod) :
    ShippingOption :=
  { method := m.method,
    cost := round2 (m.baseCost * zoneConfig.multiplier * weightMultiplier),
    estimatedDays := max 1 ⌈(zoneConfig.baseDays : ℚ) * m.speedMultiplier⌉ }

/-- Insert an option into a cost-sorted list (the `.sort((a, b) => a.cost -
b.cost)` of the source, realised as insertion sort). -/
def insertByCost (o : ShippingOption) : List ShippingOption → List ShippingOption
  | [] => [o]
  | x :: xs => if o.cost ≤ x.cost then o :: x :: xs else x :: insertByCost o xs

/-- Sort options ascending by cost. -/
def sortByCost (l : List ShippingOption) : List ShippingOption :=
  l.foldr insertByCost []

/-- The option list computed after input validation: filter the base methods
by weight cap, price each survivor, sort ascending by cost, and fall back to
the single synthetic Freight option when no method survives. -/
def shippingOptions (destination_address : String) (total_weight : ℚ) :
    List ShippingOption :=
  let zoneConfig := SHIPPING_ZONES (determineShippingZone destination_address)
  let weightMultiplier := calculateWeightMultiplier total_weight
  let options := sortByCost
    ((BASE_METHODS.filter (fun m => total_weight ≤ m.maxWeight)).map
      (mkOption zoneConfig weightMultiplier))
  if options.isEmpty then
    [{ method := "Freight",
       cost := round2 (50.0 * zoneConfig.multiplier * weightMultiplier),
       estimatedDays := zoneConfig.baseDays + 2 }]
  else options

/-- `calculateShipping`: validates that the destination address is not
empty/whitespace-only (`!destination_address.trim()`) and the weight is
positive, then returns the computed options. -/
def calculateShipping (destination_address : String) (total_weight : ℚ) :
    Except String (List ShippingOption) :=
  if destination_address.data.all (fun c => c.isWhitespace) then
    .error "Destination address cannot be empty"
  else if total_weight ≤ 0 then
    .error "Total weight must be greater than 0"
  else
    .ok (shippingOptions destination_address total_weight)

/-! ### Operation sequences (for the stock invariant) -/

/-- One core operation, as fired by a client request. -/
inductive Op where
  | addOp (input : AddToCartInput) (userId : Nat)
  | updateOp (input : UpdateCartItemInput) (userId : Nat)
  | removeOp (id userId : Nat)
  | orderOp (input : CreateOrderInput) (userId : Nat)
  deriving Repr

/-- Apply one operation to the store; a handler that throws leaves the
store unchanged (its transaction aborts). -/
def applyOp (db : DB) : Op → DB
  | .addOp input userId =>
    match addToCart input userId db with
    | .ok r => r.2
    | .error _ => db
  | .updateOp input userId =>
    match updateCartItem input userId db with
    | .ok r => r.2
    | .error _ => db
  | .removeOp id userId => (removeCartItem id userId db).2
  | .orderOp input userId =>
    match createOrder input userId db with
    | .ok r => r.2
    | .error _ => db

/-- Run a sequence of operations. -/
def run (db : DB) (ops : List Op) : DB :=
  ops.foldl applyOp db

/-- Every product's stock is non-negative. -/
def StockOK (db : DB) : Prop :=
  ∀ p ∈ db.products, 0 ≤ p.stock

/-- Cart lines are unique per (user, product) pair (data-model invariant of
spec §3). -/
def CartUnique (db : DB) : Prop :=
  db.cartItems.Pairwise
    (fun a b => ¬(a.user_id = b.user_id ∧ a.product_id = b.product_id))

/-- Product ids are distinct (serial primary key of the `products` table). -/
def ProductIdsNodup (db : DB) : Prop :=
  (db.products.map Product.id).Nodup

instance : DecidablePred StockOK := fun db =>
  inferInstanceAs (Decidable (∀ p ∈ db.products, 0 ≤ p.stock))

instance : DecidablePred CartUnique := fun db =>
  inferInstanceAs (Decidable (List.Pairwise _ _))

instance : DecidablePred ProductIdsNodup := fun db =>
  inferInstanceAs (Decidable (List.Nodup _))

/-- The data-model invariants of spec §3 that the operations preserve:
non-negative stock, (user, product)-unique cart lines, and distinct product
ids (serial primary key). -/
def Inv (db : DB) : Prop :=
  StockOK db ∧ CartUnique db ∧ ProductIdsNodup db

/-- Exact order total of a user's cart: the sum of `product.price ×
line.quantity` over the user's cart lines. -/
def cartTotal (db : DB) (userId : Nat) : ℚ :=
  ((userLines db userId).map
    (fun ci => (productOf db ci).price * (ci.quantity : ℚ))).sum

/-! ### Concrete states used by the witnesses -/

/-- A store with two products (999.99 with stock 10, 29.99 with stock 5),
one active user and an empty cart. -/
def baseDB : DB :=
  { users := [{ id := 1, is_active := true }],
    products := [{ id := 1, price := 999.99, stock := 10 },
                 { id := 2, price := 29.99, stock := 5 }],
    cartItems := [], orders := [], orderItems := [],
    nextCartItemId := 1, nextOrderId := 1 }

/-- `baseDB` with the two-line cart of the spec's checkout example:
(product 1, qty 2) and (product 2, qty 1). -/
def checkoutDB : DB :=
  { baseDB with
      cartItems := [{ id := 1, user_id := 1, product_id := 1, quantity := 2 },
                    { id := 2, user_id := 1, product_id := 2, quantity := 1 }],
      nextCartItemId := 3 }

/-- `baseDB` with a single cart line of quantity 2 for product 1. -/
def cart2DB : DB :=
  { baseDB with
      cartItems := [{ id := 1, user_id := 1, product_id := 1, quantity := 2 }],
      nextCartItemId := 2 }

/-- `baseDB` with a single cart line of quantity 8 for product 1. -/
def cart8DB : DB :=
  { baseDB with
      cartItems := [{ id := 1, user_id := 1, product_id := 1, quantity := 8 }],
      nextCartItemId := 2 }

/-- A store whose one product has stock 1 while the user's cart line asks
for quantity 5. -/
def lowStockDB : DB :=
  { users := [{ id := 1, is_active := true }],
    products := [{ id := 1, price := 999.99, stock := 1 }],
    cartItems := [{ id := 1, user_id := 1, product_id := 1, quantity := 5 }],
    orders := [], orderItems := [],
    nextCartItemId := 2, nextOrderId := 1 }

/-- A fixed checkout input for the witnesses. -/
def sampleInput : CreateOrderInput :=
  { shipping_address := "123 Main St, City, State 12345",
    shipping_method := "Standard Shipping" }

/-! ### Helper lemmas -/

theorem filter_pair_of_pairwise_find (uid pid : Nat) :
    ∀ (l : List CartItem) (existing : CartItem),
      l.Pairwise (fun a b => ¬(a.user_id = b.user_id ∧ a.product_id = b.product_id)) →
      l.find? (fun ci => ci.user_id == uid && ci.product_id == pid) = some existing →
      l.filter (fun ci => ci.user_id == uid && ci.product_id == pid) = [existing]
  | [], existing => by intro _ h; simp at h
  | a :: l, existing => by
    intro hpw hfind
    rcases List.pairwise_cons.1 hpw with ⟨hhead, htail⟩
    by_cases ha : (a.user_id == uid && a.product_id == pid) = true
    · rw [@List.find?_cons_of_pos _ (fun ci => ci.user_id == uid && ci.product_id == pid)
        a l ha] at hfind
      cases hfind
      rw [@List.filter_cons_of_pos _ (fun ci => ci.user_id == uid && ci.product_id == pid)
        a l ha]
      have hnil : l.filter (fun ci => ci.user_id == uid && ci.product_id == pid) = [] := by
        apply List.filter_eq_nil.2
        intro b hb hbpair
        simp only [Bool.and_eq_true, beq_iff_eq] at ha hbpair
        exact hhead b hb ⟨ha.1.trans hbpair.1.symm, ha.2.trans hbpair.2.symm⟩
      rw [hnil]
    · rw [@List.find?_cons_of_neg _ (fun ci => ci.user_id == uid && ci.product_id == pid)
        a l ha] at hfind
      rw [@List.filter_cons_of_neg _ (fun ci => ci.user_id == uid && ci.product_id == pid)
        a l ha]
      exact filter_pair_of_pairwise_find uid pid l existing htail hfind

/-! ### C7: removal is advisory and idempotent -/

/-- C7: `removeCartItem` never throws (it is a total function into a success
flag and the new store): it reports `success = true` exactly when a line with
the given id owned by the user existed, it deletes exactly the matching
lines, and a second call on the same id reports `success = false` and leaves
the store unchanged. -/
theorem removeCartItem_idempotent (id userId : Nat) (db : DB) :
    ((removeCartItem id userId db).1 = true ↔
      ∃ ci ∈ db.cartItems, ci.id = id ∧ ci.user_id = userId) ∧
    (removeCartItem id userId db).2.cartItems =
      db.cartItems.filter (fun ci => !(ci.id == id && ci.user_id == userId)) ∧
    removeCartItem id userId (removeCartItem id userId db).2 =
      (false, (removeCartItem id userId db).2) := by
  refine ⟨?_, rfl, ?_⟩
  · simp only [removeCartItem, Bool.not_eq_true', Bool.not_eq_false]
    rw [List.isEmpty_eq_false]
    simp only [ne_eq, List.filter_eq_nil, Bool.and_eq_true, beq_iff_eq, not_forall,
      not_not, exists_prop]
  · have hnil : ((removeCartItem id userId db).2.cartItems.filter
        (fun ci => ci.id == id && ci.user_id == userId)) = [] := by
      apply List.filter_eq_nil.2
      intro b hb
      simp only [removeCartItem, List.mem_filter, Bool.not_eq_true'] at hb
      simp [hb.2]
    have hsame : ((removeCartItem id userId db).2.cartItems.filter
        (fun ci => !(ci.id == id && ci.user_id == userId)))
        = (removeCartItem id userId db).2.cartItems := by
      apply List.filter_eq_self.2
      intro b hb
      simp only [removeCartItem, List.mem_filter] at hb
      exact hb.2
    simp only [removeCartItem] at hnil hsame ⊢
    rw [hnil, hsame]
    simp

/-- C7 witness: on a store holding the line, removal succeeds, the repeat
removal fails and changes nothing. -/
theorem removeCartItem_idempotent_witness :
    ((removeCartItem 1 1 cart2DB).1 = true ↔
      ∃ ci ∈ cart2DB.cartItems, ci.id = 1 ∧ ci.user_id = 1) ∧
    (removeCartItem 1 1 cart2DB).2.cartItems =
      cart2DB.cartItems.filter (fun ci => !(ci.id == 1 && ci.user_id == 1)) ∧
    removeCartItem 1 1 (removeCartItem 1 1 cart2DB).2 =
      (false, (removeCartItem 1 1 cart2DB).2) :=
  removeCartItem_idempotent 1 1 cart2DB

/-! ### C2: checkout on an empty cart -/

/-- C2: when the user has no cart lines, `createOrder` (modelled from the
spec, the handler being a placeholder) fails with the `Cart is empty` error,
and the aborted operation leaves the store — in particular the order and
order-item tables — exactly as it was. -/
theorem createOrder_emptyCart (input : CreateOrderInput) (userId : Nat) (db : DB)
    (h : userLines db userId = []) :
    createOrder input userId db = .error "Cart is empty" ∧
    applyOp db (.orderOp input userId) = db := by
  have herr : createOrder input userId db = .error "Cart is empty" := by
    simp [createOrder, h]
  exact ⟨herr, by simp [applyOp, herr]⟩

/-- C2 witness: checkout on the store with an empty cart. -/
theorem createOrder_emptyCart_witness :
    userLines baseDB 1 = [] ∧
    (createOrder sampleInput 1 baseDB = .error "Cart is empty" ∧
      applyOp baseDB (.orderOp sampleInput 1) = baseDB) :=
  ⟨rfl, createOrder_emptyCart sampleInput 1 baseDB rfl⟩

/-! ### C10: zone keyword precedence -/

/-- C10: zone classification checks the local keywords first: any address
whose lowercased text contains `local` is classified as the local zone —
even if it also contains an international marker — and is therefore priced
with the local cost multiplier 1.0 and base transit time of 1 day. -/
theorem determineShippingZone_local_precedence (address : String)
    (h : containsSub (lowerChars address) "local".data = true) :
    determineShippingZone address = .localZone ∧
    (SHIPPING_ZONES (determineShippingZone address)).multiplier = 1 ∧
    (SHIPPING_ZONES (determineShippingZone address)).baseDays = 1 := by
  have hz : determineShippingZone address = .localZone := by
    simp [determineShippingZone, h]
  refine ⟨hz, ?_, ?_⟩ <;> rw [hz] <;> norm_num [SHIPPING_ZONES]

/-- C10 witness: an address containing both `Local` (capitalised, checking
case-insensitivity) and the international marker `Canada` is still local. -/
theorem determineShippingZone_local_precedence_witness :
    containsSub (lowerChars "10 Local Rd, Toronto, Canada") "local".data = true ∧
    (determineShippingZone "10 Local Rd, Toronto, Canada" = .localZone ∧
      (SHIPPING_ZONES (determineShippingZone "10 Local Rd, Toronto, Canada")).multiplier = 1 ∧
      (SHIPPING_ZONES (determineShippingZone "10 Local Rd, Toronto, Canada")).baseDays = 1) :=
  ⟨by decide, determineShippingZone_local_precedence "10 Local Rd, Toronto, Canada" (by decide)⟩

theorem insertByCost_perm (o : ShippingOption) (l : List ShippingOption) :
    List.Perm (insertByCost o l) (o :: l) := by
  induction l with
  | nil => exact .refl _
  | cons x xs ih =>
    simp only [insertByCost]
    split
    · exact .refl _
    · exact (ih.cons x).trans (List.Perm.swap o x xs)

theorem sortByCost_perm (l : List ShippingOption) : List.Perm (sortByCost l) l := by
  induction l with
  | nil => exact .refl _
  | cons x xs ih =>
    simpa [sortByCost, List.foldr] using
      (insertByCost_perm x (sortByCost xs)).trans (ih.cons x)

theorem insertByCost_sorted (o : ShippingOption) (l : List ShippingOption)
    (h : l.Pairwise (fun a b => a.cost ≤ b.cost)) :
    (insertByCost o l).Pairwise (fun a b => a.cost ≤ b.cost) := by
  induction l with
  | nil => simp [insertByCost]
  | cons x xs ih =>
    rcases List.pairwise_cons.1 h with ⟨hx, hxs⟩
    simp only [insertByCost]
    split
    · rename_i hle
      exact List.pairwise_cons.2 ⟨by
        intro b hb
        rcases List.mem_cons.1 hb with rfl | hb
        · exact hle
        · exact le_trans hle (hx b hb), h⟩
    · rename_i hgt
      refine List.pairwise_cons.2 ⟨?_, ih hxs⟩
      intro b hb
      rcases List.mem_cons.1 ((insertByCost_perm o xs).mem_iff.1 hb) with rfl | hb
      · exact le_of_not_le hgt
      · exact hx b hb

theorem sortByCost_sorted (l : List ShippingOption) :
    (sortByCost l).Pairwise (fun a b => a.cost ≤ b.cost) := by
  induction l with
  | nil => simp [sortByCost]
  | cons x xs ih => exact insertByCost_sorted x (sortByCost xs) ih

/-! ### C8: surviving methods, pricing formula, ascending order -/

/-- C8: with a valid destination and positive weight, every base method
whose weight cap is not exceeded contributes exactly the option priced
`round2(baseCost × zoneMultiplier × weightMultiplier)` with ETA
`max(1, ceil(zoneBaseDays × speedFactor))` (this is `mkOption`), and the
returned list is sorted ascending by cost; whenever any method survives
(in particular whenever `w ≤ 50`), the result is a permutation of the
priced survivors, so it contains exactly one option per survivor. -/
theorem calculateShipping_survivors (address : String) (w : ℚ)
    (haddr : address.data.all (fun c => c.isWhitespace) = false)
    (hw : 0 < w) :
    calculateShipping address w = .ok (shippingOptions address w) ∧
    (shippingOptions address w).Pairwise (fun a b => a.cost ≤ b.cost) ∧
    (∀ m ∈ BASE_METHODS, w ≤ m.maxWeight →
      mkOption (SHIPPING_ZONES (determineShippingZone address))
        (calculateWeightMultiplier w) m ∈ shippingOptions address w) ∧
    (w ≤ 50 →
      List.Perm (shippingOptions address w)
        ((BASE_METHODS.filter (fun m => w ≤ m.maxWeight)).map
          (mkOption (SHIPPING_ZONES (determineShippingZone address))
            (calculateWeightMultiplier w)))) := by
  have hw0 : ¬ w ≤ 0 := not_le.2 hw
  refine ⟨by simp [calculateShipping, haddr, hw0], ?_⟩
  by_cases hemp : (BASE_METHODS.filter (fun m => w ≤ m.maxWeight)).map
      (mkOption (SHIPPING_ZONES (determineShippingZone address))
        (calculateWeightMultiplier w)) = []
  · have hso : shippingOptions address w =
        [{ method := "Freight",
           cost := round2 (50.0 *
             (SHIPPING_ZONES (determineShippingZone address)).multiplier *
             calculateWeightMultiplier w),
           estimatedDays :=
             (SHIPPING_ZONES (determineShippingZone address)).baseDays + 2 }] := by
      simp only [shippingOptions, hemp, sortByCost, List.foldr_nil, List.isEmpty_nil,
        if_true]
    refine ⟨by simp [hso], ?_, ?_⟩
    · intro m hm hcap
      exfalso
      have : mkOption (SHIPPING_ZONES (determineShippingZone address))
          (calculateWeightMultiplier w) m ∈ (BASE_METHODS.filter
            (fun m => w ≤ m.maxWeight)).map
          (mkOption (SHIPPING_ZONES (determineShippingZone address))
            (calculateWeightMultiplier w)) :=
        List.mem_map_of_mem _ (List.mem_filter.2 ⟨hm, by simpa using hcap⟩)
      simp [hemp] at this
    · intro h50
      exfalso
      have hstd : (⟨"Standard", 5.99, 1.0, 50⟩ : BaseMethod) ∈ BASE_METHODS.filter
            (fun m => w ≤ m.maxWeight) := by
        refine List.mem_filter.2 ⟨by simp [BASE_METHODS], by simpa using h50⟩
      have : mkOption (SHIPPING_ZONES (determineShippingZone address))
          (calculateWeightMultiplier w) (⟨"Standard", 5.99, 1.0, 50⟩ : BaseMethod)
          ∈ (BASE_METHODS.filter
            (fun m => w ≤ m.maxWeight)).map
          (mkOption (SHIPPING_ZONES (determineShippingZone address))
            (calculateWeightMultiplier w)) := List.mem_map_of_mem _ hstd
      simp [hemp] at this
  · have hne : sortByCost ((BASE_METHODS.filter (fun m => w ≤ m.maxWeight)).map
        (mkOption (SHIPPING_ZONES (determineShippingZone address))
          (calculateWeightMultiplier w))) ≠ [] := by
      intro hnil
      have hperm := sortByCost_perm ((BASE_METHODS.filter (fun m => w ≤ m.maxWeight)).map
        (mkOption (SHIPPING_ZONES (determineShippingZone address))
          (calculateWeightMultiplier w)))
      rw [hnil] at hperm
      exact hemp hperm.symm.eq_nil
    have hso : shippingOptions address w =
        sortByCost ((BASE_METHODS.filter (fun m => w ≤ m.maxWeight)).map
          (mkOption (SHIPPING_ZONES (determineShippingZone address))
            (calculateWeightMultiplier w))) := by
      simp only [shippingOptions]
      rw [if_neg (by simpa [List.isEmpty_iff] using hne)]
    refine ⟨hso ▸ sortByCost_sorted _, ?_, fun _ => hso ▸ sortByCost_perm _⟩
    intro m hm hcap
    rw [hso, (sortByCost_perm _).mem_iff]
    exact List.mem_map_of_mem _ (List.mem_filter.2 ⟨hm, by simpa using hcap⟩)

/-- C8 witness: `estimateShipping("123 Local St", 2.5)` keeps all three
methods, sorted ascending by cost with every ETA at least one day; the
concrete result is Standard 7.19, Express 15.59, Overnight 29.99, each with
a one-day ETA. -/
theorem calculateShipping_survivors_witness :
    ("123 Local St".data.all (fun c => c.isWhitespace)) = false ∧
    (0 : ℚ) < 2.5 ∧
    (calculateShipping "123 Local St" (2.5 : ℚ) =
        .ok (shippingOptions "123 Local St" (2.5 : ℚ)) ∧
      (shippingOptions "123 Local St" (2.5 : ℚ)).Pairwise
        (fun a b => a.cost ≤ b.cost) ∧
      (∀ m ∈ BASE_METHODS, (2.5 : ℚ) ≤ m.maxWeight →
        mkOption (SHIPPING_ZONES (determineShippingZone "123 Local St"))
          (calculateWeightMultiplier (2.5 : ℚ)) m
          ∈ shippingOptions "123 Local St" (2.5 : ℚ)) ∧
      ((2.5 : ℚ) ≤ 50 →
        List.Perm (shippingOptions "123 Local St" (2.5 : ℚ))
          ((BASE_METHODS.filter (fun m => (2.5 : ℚ) ≤ m.maxWeight)).map
            (mkOption (SHIPPING_ZONES (determineShippingZone "123 Local St"))
              (calculateWeightMultiplier (2.5 : ℚ)))))) ∧
    shippingOptions "123 Local St" (2.5 : ℚ) =
      [{ method := "Standard", cost := 7.19, estimatedDays := 1 },
       { method := "Express", cost := 15.59, estimatedDays := 1 },
       { method := "Overnight", cost := 29.99, estimatedDays := 1 }] := by
  refine ⟨by decide, by norm_num,
    calculateShipping_survivors "123 Local St" (2.5 : ℚ) (by decide) (by norm_num), ?_⟩
  have hz : determineShippingZone "123 Local St" = .localZone := by decide
  have hc1 : (⌈(2 / 5 : ℚ)⌉ : ℤ) = 1 := by rw [Int.ceil_eq_iff] <;> norm_num
  have hc2 : (⌈(1 / 5 : ℚ)⌉ : ℤ) = 1 := by rw [Int.ceil_eq_iff] <;> norm_num
  simp only [shippingOptions, hz, SHIPPING_ZONES]
  norm_num [calculateWeightMultiplier, BASE_METHODS, mkOption, round2, jsRound,
    sortByCost, insertByCost, List.filter, List.foldr, hc1, hc2]

/-! ### C9: freight fallback for overweight shipments -/

/-- C9: with a valid destination and a total weight above every base
method's cap (all caps are ≤ 50), the estimator returns exactly one
synthetic `Freight` option costing `round2(50.0 × zoneMultiplier ×
weightMultiplier)` (the weight multiplier being 2.5 in this band) with
`estimatedDays = zoneBaseDays + 2`; the cost exceeds 100 in every zone. -/
theorem calculateShipping_freight (address : String) (w : ℚ)
    (haddr : address.data.all (fun c => c.isWhitespace) = false)
    (hw : 50 < w) :
    calculateShipping address w =
      .ok [{ method := "Freight",
             cost := round2 (50.0 *
               (SHIPPING_ZONES (determineShippingZone address)).multiplier * 2.5),
             estimatedDays :=
               (SHIPPING_ZONES (determineShippingZone address)).baseDays + 2 }] ∧
    100 < round2 (50.0 *
      (SHIPPING_ZONES (determineShippingZone address)).multiplier * 2.5) := by
  have hw0 : ¬ w ≤ 0 := by linarith
  have h1 : ¬ w ≤ 1 := by linarith
  have h5 : ¬ w ≤ 5 := by linarith
  have h10 : ¬ w ≤ 10 := by linarith
  have h20 : ¬ w ≤ 20 := by linarith
  have h30 : ¬ w ≤ 30 := by linarith
  have h50 : ¬ w ≤ 50 := by linarith
  have hwm : calculateWeightMultiplier w = 2.5 := by
    simp only [calculateWeightMultiplier, if_neg h1, if_neg h5, if_neg h10, if_neg h20]
  have hopts : shippingOptions address w =
      [{ method := "Freight",
         cost := round2 (50.0 *
           (SHIPPING_ZONES (determineShippingZone address)).multiplier * 2.5),
         estimatedDays :=
           (SHIPPING_ZONES (determineShippingZone address)).baseDays + 2 }] := by
    simp only [shippingOptions, hwm]
    simp [BASE_METHODS, h20, h30, h50, sortByCost]
  refine ⟨?_, ?_⟩
  · simp [calculateShipping, haddr, hw0, hopts]
  · cases hzone : determineShippingZone address <;>
      norm_num [SHIPPING_ZONES, round2, jsRound]

/-- C9 witness: weight 60 at a national-zone address yields the single
Freight option, costing more than 100. -/
theorem calculateShipping_freight_witness :
    ("123 Main St, New York".data.all (fun c => c.isWhitespace)) = false ∧
    (50 : ℚ) < 60 ∧
    (calculateShipping "123 Main St, New York" 60 =
      .ok [{ method := "Freight",
             cost := round2 (50.0 *
               (SHIPPING_ZONES (determineShippingZone "123 Main St, New York")).multiplier * 2.5),
             estimatedDays :=
               (SHIPPING_ZONES (determineShippingZone "123 Main St, New York")).baseDays + 2 }] ∧
      100 < round2 (50.0 *
        (SHIPPING_ZONES (determineShippingZone "123 Main St, New York")).multiplier * 2.5)) :=
  ⟨by decide, by norm_num,
    calculateShipping_freight "123 Main St, New York" 60 (by decide) (by norm_num)⟩

/-! ### C5: addToCart merges quantities against current stock -/

/-- C5: when a (user, product) cart line with quantity `q0` already exists,
`addToCart` with requested quantity `q` merges to a single line of quantity
`q0 + q` when the merged total fits the current stock, and otherwise fails
with an insufficient-stock error leaving the store (hence the line's
quantity) untouched; whenever the requested quantity alone fits the stock
the failure carries the merged-total message, which is distinct from the
single-quantity message. -/
theorem addToCart_merges (input : AddToCartInput) (userId : Nat) (db : DB)
    (user : User) (product : Product) (existing : CartItem)
    (huser : db.users.find? (fun u => u.id == userId) = some user)
    (hactive : user.is_active = true)
    (hprod : db.products.find? (fun p => p.id == input.product_id) = some product)
    (hfind : db.cartItems.find?
      (fun ci => ci.user_id == userId && ci.product_id == input.product_id)
      = some existing)
    (hq0 : 0 ≤ existing.quantity)
    (hUnique : CartUnique db) :
    (existing.quantity + input.quantity ≤ product.stock →
      addToCart input userId db = .ok
        ({ existing with quantity := existing.quantity + input.quantity },
          { db with cartItems := db.cartItems.map (fun ci =>
              if ci.id == existing.id then
                { ci with quantity := existing.quantity + input.quantity }
              else ci) }) ∧
      (applyOp db (.addOp input userId)).cartItems.filter
          (fun ci => ci.user_id == userId && ci.product_id == input.product_id)
        = [{ existing with quantity := existing.quantity + input.quantity }]) ∧
    (product.stock < existing.quantity + input.quantity →
      ∃ e, addToCart input userId db = .error e ∧
        (e = "Total quantity exceeds available stock"
          ∨ e = "Insufficient stock available") ∧
        (input.quantity ≤ product.stock →
          e = "Total quantity exceeds available stock") ∧
        applyOp db (.addOp input userId) = db) ∧
    ("Total quantity exceeds available stock" ≠ "Insufficient stock available") := by
  refine ⟨?_, ?_, by decide⟩
  · intro hle
    have hsingle : ¬ product.stock < input.quantity := not_lt.2 (by linarith)
    have hmerge : ¬ product.stock < existing.quantity + input.quantity := not_lt.2 hle
    have hok : addToCart input userId db = .ok
        ({ existing with quantity := existing.quantity + input.quantity },
          { db with cartItems := db.cartItems.map (fun ci =>
              if ci.id == existing.id then
                { ci with quantity := existing.quantity + input.quantity }
              else ci) }) := by
      simp only [addToCart, huser, hactive, hprod, hfind, Bool.not_true,
        Bool.false_eq_true, if_false, if_neg hsingle, if_neg hmerge]
    refine ⟨hok, ?_⟩
    have happly : applyOp db (.addOp input userId)
        = { db with cartItems := db.cartItems.map (fun ci =>
            if ci.id == existing.id then
              { ci with quantity := existing.quantity + input.quantity }
            else ci) } := by
      simp [applyOp, hok]
    rw [happly]
    have hpf : ((fun ci : CartItem =>
          ci.user_id == userId && ci.product_id == input.product_id) ∘
        (fun ci : CartItem =>
          if ci.id == existing.id then
            { ci with quantity := existing.quantity + input.quantity }
          else ci))
        = (fun ci : CartItem =>
          ci.user_id == userId && ci.product_id == input.product_id) := by
      funext ci
      by_cases h : (ci.id == existing.id) = true <;> simp [Function.comp, h]
    have hfilter := filter_pair_of_pairwise_find userId input.product_id
      db.cartItems existing hUnique hfind
    show (db.cartItems.map _).filter _ = _
    rw [List.filter_map, hpf, hfilter]
    simp
  · intro hgt
    by_cases hsingle : product.stock < input.quantity
    · refine ⟨"Insufficient stock available", ?_, Or.inr rfl,
        fun h => absurd h (not_le.2 hsingle), ?_⟩
      · simp only [addToCart, huser, hactive, hprod, Bool.not_true,
          Bool.false_eq_true, if_false, if_pos hsingle]
      · have herr : addToCart input userId db = .error "Insufficient stock available" := by
          simp only [addToCart, huser, hactive, hprod, Bool.not_true,
            Bool.false_eq_true, if_false, if_pos hsingle]
        simp [applyOp, herr]
    · have herr : addToCart input userId db
          = .error "Total quantity exceeds available stock" := by
        simp only [addToCart, huser, hactive, hprod, hfind, Bool.not_true,
          Bool.false_eq_true, if_false, if_neg hsingle, if_pos hgt]
      exact ⟨_, herr, Or.inl rfl, fun _ => rfl, by simp [applyOp, herr]⟩

/-- C5 witness: with stock 10, adding 3 onto an existing line of 2 merges to
a single line of quantity 5, while adding 5 onto an existing line of 8 fails
with the merged-total message and leaves the line at 8. -/
theorem addToCart_merges_witness :
    addToCart ⟨1, 3⟩ 1 cart2DB = .ok
      ({ id := 1, user_id := 1, product_id := 1, quantity := 5 },
        { cart2DB with
            cartItems := [{ id := 1, user_id := 1, product_id := 1, quantity := 5 }] }) ∧
    (applyOp cart2DB (.addOp ⟨1, 3⟩ 1)).cartItems.filter
        (fun ci => ci.user_id == 1 && ci.product_id == 1)
      = [{ id := 1, user_id := 1, product_id := 1, quantity := 5 }] ∧
    (∃ e, addToCart ⟨1, 5⟩ 1 cart8DB = .error e ∧
      e = "Total quantity exceeds available stock" ∧
      applyOp cart8DB (.addOp ⟨1, 5⟩ 1) = cart8DB) := by
  have h1 := (addToCart_merges ⟨1, 3⟩ 1 cart2DB ⟨1, true⟩ ⟨1, 999.99, 10⟩ ⟨1, 1, 1, 2⟩
    rfl rfl rfl rfl (by decide) (by decide)).1 (by decide)
  have h2 := (addToCart_merges ⟨1, 5⟩ 1 cart8DB ⟨1, true⟩ ⟨1, 999.99, 10⟩ ⟨1, 1, 1, 8⟩
    rfl rfl rfl rfl (by decide) (by decide)).2.1 (by decide)
  obtain ⟨e, he, _, hmsg, happ⟩ := h2
  exact ⟨h1.1, h1.2, e, he, hmsg (by decide), happ⟩

/-! ### C6: updateCartItem validation and isolation -/

/-- C6: `updateCartItem` fails with the single not-found error when no line
matches (id, user) — a missing line and a foreign line are indistinguishable
to the caller; with the line and its product present it fails with the
insufficient-stock error exactly when the new quantity exceeds current stock
(equality allowed), and otherwise replaces only that line's quantity,
keeping every other line in the store. -/
theorem updateCartItem_spec (input : UpdateCartItemInput) (userId : Nat) (db : DB) :
    (db.cartItems.find? (fun ci => ci.id == input.id && ci.user_id == userId) = none →
      updateCartItem input userId db
        = .error "Cart item not found or does not belong to user" ∧
      applyOp db (.updateOp input userId) = db) ∧
    (∀ existing product,
      db.cartItems.find? (fun ci => ci.id == input.id && ci.user_id == userId)
        = some existing →
      db.products.find? (fun p => p.id == existing.product_id) = some product →
      (product.stock < input.quantity →
        updateCartItem input userId db = .error
          ("Insufficient stock. Available: " ++ toString product.stock
            ++ ", requested: " ++ toString input.quantity) ∧
        applyOp db (.updateOp input userId) = db) ∧
      (input.quantity ≤ product.stock →
        updateCartItem input userId db = .ok
          ({ existing with quantity := input.quantity },
            { db with cartItems := db.cartItems.map (fun ci =>
                if ci.id == input.id then { ci with quantity := input.quantity }
                else ci) }) ∧
        ∀ ci ∈ db.cartItems, ¬ ci.id = input.id →
          ci ∈ (applyOp db (.updateOp input userId)).cartItems)) := by
  constructor
  · intro hnone
    have herr : updateCartItem input userId db
        = .error "Cart item not found or does not belong to user" := by
      simp only [updateCartItem, hnone]
    exact ⟨herr, by simp [applyOp, herr]⟩
  · intro existing product hfind hprod
    constructor
    · intro hlt
      have herr : updateCartItem input userId db = .error
          ("Insufficient stock. Available: " ++ toString product.stock
            ++ ", requested: " ++ toString input.quantity) := by
        simp only [updateCartItem, hfind, hprod, if_pos hlt]
      exact ⟨herr, by simp [applyOp, herr]⟩
    · intro hle
      have hok : updateCartItem input userId db = .ok
          ({ existing with quantity := input.quantity },
            { db with cartItems := db.cartItems.map (fun ci =>
                if ci.id == input.id then { ci with quantity := input.quantity }
                else ci) }) := by
        simp only [updateCartItem, hfind, hprod, if_neg (not_lt.2 hle)]
      refine ⟨hok, ?_⟩
      intro ci hci hne
      have happly : applyOp db (.updateOp input userId)
          = { db with cartItems := db.cartItems.map (fun ci =>
              if ci.id == input.id then { ci with quantity := input.quantity }
              else ci) } := by
        simp [applyOp, hok]
      rw [happly]
      have hfix : (if ci.id == input.id then
          ({ ci with quantity := input.quantity } : CartItem) else ci) = ci := by
        simp [hne]
      have hmem := List.mem_map_of_mem (fun ci : CartItem =>
        if ci.id == input.id then { ci with quantity := input.quantity } else ci) hci
      simpa only [hfix] using hmem

/-- C6 witness: a foreign user gets the not-found error; raising the
quantity above stock fails with the insufficient-stock message; setting it
to exactly the stock succeeds and the (only other-less) line is replaced. -/
theorem updateCartItem_spec_witness :
    (updateCartItem ⟨1, 3⟩ 2 cart2DB
        = .error "Cart item not found or does not belong to user" ∧
      applyOp cart2DB (.updateOp ⟨1, 3⟩ 2) = cart2DB) ∧
    (updateCartItem ⟨1, 20⟩ 1 cart2DB = .error
        ("Insufficient stock. Available: " ++ toString (10 : Int)
          ++ ", requested: " ++ toString (20 : Int)) ∧
      applyOp cart2DB (.updateOp ⟨1, 20⟩ 1) = cart2DB) ∧
    (updateCartItem ⟨1, 10⟩ 1 cart2DB = .ok
        ({ id := 1, user_id := 1, product_id := 1, quantity := 10 },
          { cart2DB with
              cartItems := [{ id := 1, user_id := 1, product_id := 1, quantity := 10 }] })) := by
  refine ⟨(updateCartItem_spec ⟨1, 3⟩ 2 cart2DB).1 rfl, ?_, ?_⟩
  · exact ((updateCartItem_spec ⟨1, 20⟩ 1 cart2DB).2 ⟨1, 1, 1, 2⟩ ⟨1, 999.99, 10⟩
      rfl rfl).1 (by decide)
  · exact (((updateCartItem_spec ⟨1, 10⟩ 1 cart2DB).2 ⟨1, 1, 1, 2⟩ ⟨1, 999.99, 10⟩
      rfl rfl).2 (by decide)).1

/-! ### C1: successful order placement -/

theorem resolveLines_of_ok (db : DB) : ∀ (lines : List CartItem),
    (∀ ci ∈ lines, ∃ p, lineProduct db ci = some p ∧ ci.quantity ≤ p.stock) →
    resolveLines db lines = .ok (lines.map (fun ci => (ci, productOf db ci)))
  | [], _ => rfl
  | ci :: rest, h => by
    obtain ⟨p, hp, hq⟩ := h ci (List.mem_cons_self ci rest)
    have hprodOf : productOf db ci = p := by simp [productOf, hp]
    simp only [resolveLines, hp, if_neg (not_lt.2 hq),
      resolveLines_of_ok db rest (fun x hx => h x (List.mem_cons_of_mem ci hx)),
      List.map_cons, hprodOf]

/-- C1: when the user's cart is non-empty and every line's quantity fits the
referenced product's current stock, `createOrder` (modelled from the spec,
the handler being a placeholder) returns the pending order whose
`total_amount` is the exact sum of `price × quantity` over the cart lines
(`cartTotal`), capturing the input's shipping address/method; the post-state
appends exactly that order, appends one order item per cart line carrying
the line's quantity and the product's current price as `price_at_purchase`,
decrements each product's stock by the quantity purchased from it, and
leaves the user with zero cart lines. -/
theorem createOrder_success (input : CreateOrderInput) (userId : Nat) (db : DB)
    (hne : userLines db userId ≠ [])
    (hres : ∀ ci ∈ userLines db userId,
      ∃ p, lineProduct db ci = some p ∧ ci.quantity ≤ p.stock) :
    createOrder input userId db = .ok
      ({ id := db.nextOrderId, user_id := userId,
         total_amount := cartTotal db userId, status := "pending",
         shipping_address := input.shipping_address,
         shipping_method := input.shipping_method },
       { db with
           orders := db.orders ++
             [{ id := db.nextOrderId, user_id := userId,
                total_amount := cartTotal db userId, status := "pending",
                shipping_address := input.shipping_address,
                shipping_method := input.shipping_method }],
           orderItems := db.orderItems ++ (userLines db userId).map (fun ci =>
             { order_id := db.nextOrderId, product_id := ci.product_id,
               quantity := ci.quantity,
               price_at_purchase := (productOf db ci).price }),
           products := db.products.map (fun p =>
             { p with stock := p.stock - cartQtyFor (userLines db userId) p.id }),
           cartItems := db.cartItems.filter (fun ci => ci.user_id != userId),
           nextOrderId := db.nextOrderId + 1 }) ∧
    userLines (applyOp db (.orderOp input userId)) userId = [] := by
  have hempty : (userLines db userId).isEmpty = false := List.isEmpty_eq_false.2 hne
  have hmap := resolveLines_of_ok db (userLines db userId) hres
  refine ⟨?_, ?_⟩
  · simp only [createOrder, hempty, Bool.false_eq_true, if_false, hmap]
    refine congrArg Except.ok ?_
    refine Prod.ext ?_ ?_
    · simp [orderTotal, cartTotal, List.map_map, Function.comp_def]
    · simp only [orderTotal, cartTotal, List.map_map]
      rfl
  · simp only [applyOp, createOrder, hempty, Bool.false_eq_true, if_false, hmap]
    simp only [userLines, List.filter_filter]
    apply List.filter_eq_nil.2
    intro a _
    cases h : (a.user_id == userId) <;> simp [bne, h]

/-- C1 witness: the spec's checkout example — cart {(product 1, qty 2, price
999.99), (product 2, qty 1, price 29.99)} — totals exactly 2029.97; the
order is persisted pending, order items snapshot the prices, stocks drop
10 → 8 and 5 → 4, and the cart is left empty. -/
theorem createOrder_success_witness :
    userLines checkoutDB 1 ≠ [] ∧
    cartTotal checkoutDB 1 = 2029.97 ∧
    (createOrder sampleInput 1 checkoutDB = .ok
      ({ id := checkoutDB.nextOrderId, user_id := 1,
         total_amount := cartTotal checkoutDB 1, status := "pending",
         shipping_address := sampleInput.shipping_address,
         shipping_method := sampleInput.shipping_method },
       { checkoutDB with
           orders := checkoutDB.orders ++
             [{ id := checkoutDB.nextOrderId, user_id := 1,
                total_amount := cartTotal checkoutDB 1, status := "pending",
                shipping_address := sampleInput.shipping_address,
                shipping_method := sampleInput.shipping_method }],
           orderItems := checkoutDB.orderItems ++ (userLines checkoutDB 1).map (fun ci =>
             { order_id := checkoutDB.nextOrderId, product_id := ci.product_id,
               quantity := ci.quantity,
               price_at_purchase := (productOf checkoutDB ci).price }),
           products := checkoutDB.products.map (fun p =>
             { p with stock := p.stock - cartQtyFor (userLines checkoutDB 1) p.id }),
           cartItems := checkoutDB.cartItems.filter (fun ci => ci.user_id != 1),
           nextOrderId := checkoutDB.nextOrderId + 1 }) ∧
      userLines (applyOp checkoutDB (.orderOp sampleInput 1)) 1 = []) ∧
    (applyOp checkoutDB (.orderOp sampleInput 1)).products
      = [{ id := 1, price := 999.99, stock := 8 },
         { id := 2, price := 29.99, stock := 4 }] ∧
    (applyOp checkoutDB (.orderOp sampleInput 1)).orderItems
      = [{ order_id := 1, product_id := 1, quantity := 2, price_at_purchase := 999.99 },
         { order_id := 1, product_id := 2, quantity := 1, price_at_purchase := 29.99 }] := by
  have h1 : userLines checkoutDB 1 = [⟨1, 1, 1, 2⟩, ⟨2, 1, 2, 1⟩] := rfl
  have h2 : productOf checkoutDB ⟨1, 1, 1, 2⟩ = ⟨1, 999.99, 10⟩ := rfl
  have h3 : productOf checkoutDB ⟨2, 1, 2, 1⟩ = ⟨2, 29.99, 5⟩ := rfl
  have htot : cartTotal checkoutDB 1 = 2029.97 := by
    simp [cartTotal, h1, h2, h3]
    norm_num
  have hres : ∀ ci ∈ userLines checkoutDB 1,
      ∃ p, lineProduct checkoutDB ci = some p ∧ ci.quantity ≤ p.stock := by
    intro ci hci
    rw [h1] at hci
    have h12 : ci = ⟨1, 1, 1, 2⟩ ∨ ci = ⟨2, 1, 2, 1⟩ := by simpa using hci
    rcases h12 with rfl | rfl
    · exact ⟨⟨1, 999.99, 10⟩, rfl, by decide⟩
    · exact ⟨⟨2, 29.99, 5⟩, rfl, by decide⟩
  have h := createOrder_success sampleInput 1 checkoutDB (by decide) hres
  refine ⟨by decide, htot, h, ?_, ?_⟩
  · simp only [applyOp, h.1]
    rfl
  · simp only [applyOp, h.1]
    rfl

/-! ### C3: checkout aborts on insufficient stock -/

theorem resolveLines_of_bad (db : DB) : ∀ (lines : List CartItem),
    (∀ ci ∈ lines, ∃ p, lineProduct db ci = some p) →
    (∃ ci ∈ lines, (productOf db ci).stock < ci.quantity) →
    ∃ ci p, ci ∈ lines ∧ lineProduct db ci = some p ∧ p.stock < ci.quantity ∧
      resolveLines db lines = .error (stockMsg p ci)
  | [], _, hbad => by simp at hbad
  | a :: rest, hall, hbad => by
    obtain ⟨p, hp⟩ := hall a (List.mem_cons_self a rest)
    have hpa : productOf db a = p := by simp [productOf, hp]
    by_cases hlt : p.stock < a.quantity
    · exact ⟨a, p, List.mem_cons_self a rest, hp, hlt,
        by simp only [resolveLines, hp, if_pos hlt]⟩
    · have hbad' : ∃ ci ∈ rest, (productOf db ci).stock < ci.quantity := by
        obtain ⟨ci, hci, hciq⟩ := hbad
        rcases List.mem_cons.1 hci with rfl | hmem
        · rw [hpa] at hciq
          exact absurd hciq hlt
        · exact ⟨ci, hmem, hciq⟩
      obtain ⟨ci, p', hmem, hp', hlt', herr⟩ := resolveLines_of_bad db rest
        (fun x hx => hall x (List.mem_cons_of_mem a hx)) hbad'
      refine ⟨ci, p', List.mem_cons_of_mem a hmem, hp', hlt', ?_⟩
      simp only [resolveLines, hp, if_neg hlt, herr]

/-- C3: when the user's cart is non-empty, every line references an existing
product, and some line's quantity exceeds its product's current stock,
`createOrder` (modelled from the spec, the handler being a placeholder)
fails with the insufficient-stock error naming the offending product and
the requested vs. available quantities, and the aborted transition leaves
the whole store — cart lines, product stocks, order tables — exactly equal
to the pre-state. -/
theorem createOrder_insufficientStock (input : CreateOrderInput) (userId : Nat)
    (db : DB)
    (hne : userLines db userId ≠ [])
    (hall : ∀ ci ∈ userLines db userId, ∃ p, lineProduct db ci = some p)
    (hbad : ∃ ci ∈ userLines db userId, (productOf db ci).stock < ci.quantity) :
    ∃ ci p, ci ∈ userLines db userId ∧ lineProduct db ci = some p ∧
      p.stock < ci.quantity ∧
      createOrder input userId db = .error (stockMsg p ci) ∧
      applyOp db (.orderOp input userId) = db := by
  have hempty : (userLines db userId).isEmpty = false := List.isEmpty_eq_false.2 hne
  obtain ⟨ci, p, hmem, hp, hlt, herr⟩ :=
    resolveLines_of_bad db (userLines db userId) hall hbad
  have hco : createOrder input userId db = .error (stockMsg p ci) := by
    simp only [createOrder, hempty, Bool.false_eq_true, if_false, herr]
  exact ⟨ci, p, hmem, hp, hlt, hco, by simp [applyOp, hco]⟩

/-- C3 witness: a cart line of quantity 5 against stock 1 makes checkout
fail with the message naming product 1, and the store is untouched. -/
theorem createOrder_insufficientStock_witness :
    userLines lowStockDB 1 ≠ [] ∧
    (∃ ci p, ci ∈ userLines lowStockDB 1 ∧ lineProduct lowStockDB ci = some p ∧
      p.stock < ci.quantity ∧
      createOrder sampleInput 1 lowStockDB = .error (stockMsg p ci) ∧
      applyOp lowStockDB (.orderOp sampleInput 1) = lowStockDB) ∧
    createOrder sampleInput 1 lowStockDB
      = .error (stockMsg ⟨1, 999.99, 1⟩ ⟨1, 1, 1, 5⟩) := by
  have hps : productOf lowStockDB ⟨1, 1, 1, 5⟩ = ⟨1, 999.99, 1⟩ := rfl
  have h := createOrder_insufficientStock sampleInput 1 lowStockDB (by decide)
    (fun ci hci => by
      have hci' : ci = ⟨1, 1, 1, 5⟩ := by
        have : ci ∈ [(⟨1, 1, 1, 5⟩ : CartItem)] := hci
        simpa using this
      subst hci'
      exact ⟨⟨1, 999.99, 1⟩, rfl⟩)
    ⟨⟨1, 1, 1, 5⟩, by decide, by rw [hps]; decide⟩
  exact ⟨by decide, h, rfl⟩

/-! ### C4: the stock ledger never goes negative -/

theorem resolveLines_ok_bound (db : DB) : ∀ (lines : List CartItem)
    (resolved : List (CartItem × Product)),
    resolveLines db lines = .ok resolved →
    ∀ ci ∈ lines, ∃ p, lineProduct db ci = some p ∧ ci.quantity ≤ p.stock := by
  intro lines
  induction lines with
  | nil => intro resolved _ ci hci; simp at hci
  | cons a rest ih =>
    intro resolved h ci hci
    simp only [resolveLines] at h
    cases hp : lineProduct db a with
    | none =>
      simp only [hp] at h
      exact Except.noConfusion h
    | some p =>
      simp only [hp] at h
      by_cases hlt : p.stock < a.quantity
      · rw [if_pos hlt] at h
        exact Except.noConfusion h
      · rw [if_neg hlt] at h
        cases hrest : resolveLines db rest with
        | error e =>
          simp only [hrest] at h
          exact Except.noConfusion h
        | ok r =>
          simp only [hrest] at h
          rcases List.mem_cons.1 hci with rfl | hmem
          · exact ⟨p, hp, not_lt.1 hlt⟩
          · exact ih r hrest ci hmem

theorem cartQtyFor_cases (uid pid : Nat) : ∀ (lines : List CartItem),
    lines.Pairwise (fun a b => ¬(a.user_id = b.user_id ∧ a.product_id = b.product_id)) →
    (∀ a ∈ lines, a.user_id = uid) →
    cartQtyFor lines pid = 0 ∨
      ∃ ci ∈ lines, ci.product_id = pid ∧ cartQtyFor lines pid = ci.quantity
  | [], _, _ => Or.inl rfl
  | a :: l, hpw, huid => by
    rcases List.pairwise_cons.1 hpw with ⟨hhead, htail⟩
    by_cases ha : (a.product_id == pid) = true
    · right
      have hnil : l.filter (fun ci => ci.product_id == pid) = [] := by
        apply List.filter_eq_nil.2
        intro b hb hbp
        simp only [beq_iff_eq] at ha hbp
        exact hhead b hb ⟨(huid a (List.mem_cons_self a l)).trans
          (huid b (List.mem_cons_of_mem a hb)).symm, ha.trans hbp.symm⟩
      refine ⟨a, List.mem_cons_self a l, by simpa using ha, ?_⟩
      simp only [cartQtyFor]
      rw [@List.filter_cons_of_pos _ (fun ci => ci.product_id == pid) a l ha, hnil]
      simp
    · have hstep : cartQtyFor (a :: l) pid = cartQtyFor l pid := by
        simp only [cartQtyFor]
        rw [@List.filter_cons_of_neg _ (fun ci => ci.product_id == pid) a l ha]
      rcases cartQtyFor_cases uid pid l htail
          (fun b hb => huid b (List.mem_cons_of_mem a hb)) with h0 | ⟨ci, hci, hcip, hq⟩
      · exact Or.inl (hstep.trans h0)
      · exact Or.inr ⟨ci, List.mem_cons_of_mem a hci, hcip, hstep.trans hq⟩

theorem cartUnique_map (l : List CartItem) (f : CartItem → CartItem)
    (hf : ∀ ci, (f ci).user_id = ci.user_id ∧ (f ci).product_id = ci.product_id)
    (h : l.Pairwise (fun a b => ¬(a.user_id = b.user_id ∧ a.product_id = b.product_id))) :
    (l.map f).Pairwise
      (fun a b => ¬(a.user_id = b.user_id ∧ a.product_id = b.product_id)) := by
  rw [List.pairwise_map]
  refine h.imp ?_
  intro a b hab
  rw [(hf a).1, (hf a).2, (hf b).1, (hf b).2]
  exact hab

theorem inv_addToCart (input : AddToCartInput) (uid : Nat) (db : DB)
    (r : CartItem × DB) (h : addToCart input uid db = .ok r) (hinv : Inv db) :
    Inv r.2 := by
  obtain ⟨hstock, hcart, hids⟩ := hinv
  simp only [addToCart] at h
  split at h
  · exact Except.noConfusion h
  · split at h
    · exact Except.noConfusion h
    · split at h
      · exact Except.noConfusion h
      · split at h
        · exact Except.noConfusion h
        · split at h
          · split at h
            · exact Except.noConfusion h
            · -- merge branch: quantities remapped, pairs untouched
              rename_i existing hfound _
              cases h
              refine ⟨hstock, ?_, hids⟩
              exact cartUnique_map db.cartItems _
                (fun ci => by split <;> simp) hcart
          · -- insert branch: a fresh line for a pair that had none
            rename_i hnone
            cases h
            refine ⟨hstock, ?_, hids⟩
            apply List.pairwise_append.2
            refine ⟨hcart, List.pairwise_singleton _ _, ?_⟩
            intro a ha b hb
            have hb' : b = (⟨db.nextCartItemId, uid, input.product_id,
                input.quantity⟩ : CartItem) := by
              simpa using hb
            subst hb'
            have := List.find?_eq_none.1 hnone a ha
            simp only [Bool.and_eq_true, beq_iff_eq, not_and] at this
            intro hcontra
            exact this hcontra.1 hcontra.2

theorem inv_updateCartItem (input : UpdateCartItemInput) (uid : Nat) (db : DB)
    (r : CartItem × DB) (h : updateCartItem input uid db = .ok r) (hinv : Inv db) :
    Inv r.2 := by
  obtain ⟨hstock, hcart, hids⟩ := hinv
  simp only [updateCartItem] at h
  split at h
  · exact Except.noConfusion h
  · split at h
    · exact Except.noConfusion h
    · split at h
      · exact Except.noConfusion h
      · cases h
        refine ⟨hstock, ?_, hids⟩
        exact cartUnique_map db.cartItems _ (fun ci => by split <;> simp) hcart

theorem inv_removeCartItem (id uid : Nat) (db : DB) (hinv : Inv db) :
    Inv (removeCartItem id uid db).2 := by
  obtain ⟨hstock, hcart, hids⟩ := hinv
  exact ⟨hstock, hcart.filter _, hids⟩

theorem inv_createOrder (input : CreateOrderInput) (uid : Nat) (db : DB)
    (r : Order × DB) (h : createOrder input uid db = .ok r) (hinv : Inv db) :
    Inv r.2 := by
  obtain ⟨hstock, hcart, hids⟩ := hinv
  simp only [createOrder] at h
  split at h
  · exact Except.noConfusion h
  · split at h
    · exact Except.noConfusion h
    · rename_i resolved hres
      cases h
      refine ⟨?_, hcart.filter _, ?_⟩
      · -- non-negative stock after the decrement
        intro p' hp'
        simp only [List.mem_map] at hp'
        obtain ⟨p, hp, rfl⟩ := hp'
        simp only
        have hbound := resolveLines_ok_bound db (userLines db uid) resolved hres
        have hpw : (userLines db uid).Pairwise
            (fun a b => ¬(a.user_id = b.user_id ∧ a.product_id = b.product_id)) :=
          hcart.filter _
        have huid : ∀ a ∈ userLines db uid, a.user_id = uid := by
          intro a ha
          have := (List.mem_filter.1 ha).2
          simpa using this
        rcases cartQtyFor_cases uid p.id (userLines db uid) hpw huid with
          h0 | ⟨ci, hci, hcip, hq⟩
        · rw [h0]
          have := hstock p hp
          omega
        · rw [hq]
          obtain ⟨p', hp', hle⟩ := hbound ci hci
          have hp'id : p'.id = ci.product_id := by
            have := List.find?_some hp'
            simpa using this
          have hp'mem : p' ∈ db.products := List.mem_of_find?_eq_some hp'
          have : p' = p := List.inj_on_of_nodup_map hids hp'mem hp
            (by rw [hp'id, hcip])
          subst this
          omega
      · -- product ids unchanged by the stock decrement
        simpa [ProductIdsNodup, List.map_map, Function.comp_def] using hids

theorem inv_applyOp (db : DB) (op : Op) (h : Inv db) : Inv (applyOp db op) := by
  cases op with
  | addOp input uid =>
    cases hadd : addToCart input uid db with
    | error e => simpa [applyOp, hadd] using h
    | ok r => simpa [applyOp, hadd] using inv_addToCart input uid db r hadd h
  | updateOp input uid =>
    cases hupd : updateCartItem input uid db with
    | error e => simpa [applyOp, hupd] using h
    | ok r => simpa [applyOp, hupd] using inv_updateCartItem input uid db r hupd h
  | removeOp id uid =>
    simpa [applyOp] using inv_removeCartItem id uid db h
  | orderOp input uid =>
    cases hord : createOrder input uid db with
    | error e => simpa [applyOp, hord] using h
    | ok r => simpa [applyOp, hord] using inv_createOrder input uid db r hord h

theorem inv_run : ∀ (ops : List Op) (db : DB), Inv db → Inv (run db ops)
  | [], _, h => h
  | op :: ops, db, h => inv_run ops (applyOp db op) (inv_applyOp db op h)

/-- C4: starting from any store satisfying the data-model invariants — every
product's stock non-negative, cart lines unique per (user, product), product
ids distinct — every sequence of core operations (`addToCart`,
`updateCartItem`, `removeCartItem`, `createOrder`) keeps every product's
stock non-negative; since `run` over any prefix is such a sequence, this
covers every intermediate state as well. -/
theorem run_stock_nonneg (db : DB)
    (hstock : StockOK db) (hcart : CartUnique db) (hids : ProductIdsNodup db)
    (ops : List Op) : StockOK (run db ops) :=
  (inv_run ops db ⟨hstock, hcart, hids⟩).1

/-- C4 witness: a concrete four-step session — add to cart, raise the
quantity, place the order, then a stray remove — keeps stock non-negative. -/
theorem run_stock_nonneg_witness :
    StockOK baseDB ∧ CartUnique baseDB ∧ ProductIdsNodup baseDB ∧
    StockOK (run baseDB
      [.addOp ⟨1, 2⟩ 1, .updateOp ⟨1, 9⟩ 1, .orderOp sampleInput 1, .removeOp 1 1]) :=
  ⟨by decide, by decide, by decide,
    run_stock_nonneg baseDB (by decide) (by decide) (by decide)
      [.addOp ⟨1, 2⟩ 1, .updateOp ⟨1, 9⟩ 1, .orderOp sampleInput 1, .removeOp 1 1]⟩

end ECommerce
